import Mathlib

/-!
# Verification of `replication.py`

A shallow embedding, in Lean 4, of the submodel-replication script
`src/replication.py`, together with theorems settling the specification
claims about it.

Modelling conventions:
* Python strings are modelled as `List Char` (`Str`); bytes as `Nat` values
  below 256.
* The process environment is an association list from keys to values.
* HTTP traffic is modelled by oracles: a fetch oracle mapping each submodel id
  to the (already JSON-parsed) response of the source GET, a post oracle
  mapping each submodel id to the destination POST status, and a fixed token
  response. Network requests issued by the code are recorded in an action
  trace.
* Python's dynamically-typed JSON values are the inductive `JVal`; Python
  exceptions are constructors of `PyErr`, and fallible code returns `Except`.

Note on the source's structure: in `replication.py` the nested function
`fetch_and_post_submodels` (line 178) and the driver code (lines 254-282) are
textually nested inside `create_submodel_descriptor`, whose `for` loop returns
on its first iteration (line 176), so under CPython scoping they are
unreachable from `main`. The embedding models the bodies of these routines as
written at their cited lines and their composition as written by the driver
loop at lines 263-282.
-/

set_option maxRecDepth 10000

namespace Replication

/-- Python `str` values, as lists of characters. -/
abbrev Str := List Char

/-! ## Base64url (`to_base64url`, source lines 28-31)

`base64.urlsafe_b64encode` groups the UTF-8 bytes of the input into 3-byte
chunks, mapping each chunk to four 6-bit indices into the URL-safe alphabet;
a trailing chunk of 1 byte yields two indices (plus `==` padding), a trailing
chunk of 2 bytes yields three (plus `=`). `to_base64url` strips the padding
with `rstrip("=")`, so the encoder below never emits it at all.
-/

/-- The URL-safe base64 alphabet used by `base64.urlsafe_b64encode`. -/
def b64Alphabet : Str :=
  "ABCDEFGHIJKLMNOPQRSTUVWXYZabcdefghijklmnopqrstuvwxyz0123456789-_".toList

/-- The alphabet character for a 6-bit index. -/
def b64Char (i : Nat) : Char := b64Alphabet.getD i 'A'

/-- Scan a list for a character, returning its position offset by `n`. -/
def b64IndexAux : Str → Nat → Char → Option Nat
  | [], _, _ => none
  | c :: cs, n, ch => if c = ch then some n else b64IndexAux cs (n + 1) ch

/-- Position of a character in the URL-safe alphabet, if any. -/
def b64CharIndex (ch : Char) : Option Nat := b64IndexAux b64Alphabet 0 ch

/-- 6-bit indices of the base64 encoding of a byte list (padding stripped). -/
def encodeChunks : List Nat → List Nat
  | [] => []
  | [a] => [a / 4, a % 4 * 16]
  | [a, b] => [a / 4, a % 4 * 16 + b / 16, b % 16 * 4]
  | a :: b :: c :: rest =>
      a / 4 :: (a % 4 * 16 + b / 16) :: (b % 16 * 4 + c / 64) :: c % 64 ::
        encodeChunks rest

/-- Bytes recovered from a list of 6-bit indices whose length is `4k`, `4k+2`
or `4k+3`: what `base64.urlsafe_b64decode` produces after `=` padding is
restored to complete the final group. -/
def decodeChunks : List Nat → List Nat
  | [i0, i1] => [i0 * 4 + i1 / 16]
  | [i0, i1, i2] => [i0 * 4 + i1 / 16, i1 % 16 * 16 + i2 / 4]
  | i0 :: i1 :: i2 :: i3 :: rest =>
      (i0 * 4 + i1 / 16) :: (i1 % 16 * 16 + i2 / 4) :: (i2 % 4 * 64 + i3) ::
        decodeChunks rest
  | _ => []

/-- UTF-8 bytes of a Unicode code point (CPython `str.encode("utf-8")`,
one character). -/
def utf8EncodeChar (n : Nat) : List Nat :=
  if n < 0x80 then [n]
  else if n < 0x800 then [0xC0 + n / 64, 0x80 + n % 64]
  else if n < 0x10000 then [0xE0 + n / 4096, 0x80 + n / 64 % 64, 0x80 + n % 64]
  else [0xF0 + n / 262144, 0x80 + n / 4096 % 64, 0x80 + n / 64 % 64,
        0x80 + n % 64]

/-- UTF-8 bytes of a string (`input_str.encode("utf-8")`). -/
def strBytes (s : Str) : List Nat := (s.map (fun c => utf8EncodeChar c.toNat)).flatten

/-- `to_base64url` (source lines 28-31): base64url-encode the UTF-8 bytes and
strip `=` padding. -/
def to_base64url (s : Str) : Str := (encodeChunks (strBytes s)).map b64Char

/-- Consume one continuation byte of a 2-byte UTF-8 sequence with lead `b`. -/
def utf8Take1 (b : Nat) : List Nat → Option (Nat × List Nat)
  | b2 :: r =>
      if 0x80 ≤ b2 ∧ b2 < 0xC0 then some ((b - 0xC0) * 64 + (b2 - 0x80), r)
      else none
  | [] => none

/-- Consume the two continuation bytes of a 3-byte UTF-8 sequence. -/
def utf8Take2 (b : Nat) : List Nat → Option (Nat × List Nat)
  | b2 :: b3 :: r =>
      if (0x80 ≤ b2 ∧ b2 < 0xC0) ∧ (0x80 ≤ b3 ∧ b3 < 0xC0) then
        some ((b - 0xE0) * 4096 + (b2 - 0x80) * 64 + (b3 - 0x80), r)
      else none
  | _ => none

/-- Consume the three continuation bytes of a 4-byte UTF-8 sequence. -/
def utf8Take3 (b : Nat) : List Nat → Option (Nat × List Nat)
  | b2 :: b3 :: b4 :: r =>
      if (0x80 ≤ b2 ∧ b2 < 0xC0) ∧ (0x80 ≤ b3 ∧ b3 < 0xC0) ∧
         (0x80 ≤ b4 ∧ b4 < 0xC0) then
        some ((b - 0xF0) * 262144 + (b2 - 0x80) * 4096 + (b3 - 0x80) * 64 +
          (b4 - 0x80), r)
      else none
  | _ => none

/-- Decode one UTF-8-encoded code point from the front of a byte list,
returning it with the remaining bytes; `none` on malformed input. -/
def utf8Step : List Nat → Option (Nat × List Nat)
  | [] => none
  | b :: rest =>
    if b < 0x80 then some (b, rest)
    else if b < 0xC0 then none
    else if b < 0xE0 then utf8Take1 b rest
    else if b < 0xF0 then utf8Take2 b rest
    else if b < 0xF8 then utf8Take3 b rest
    else none

/-- Fuel-indexed UTF-8 decoding loop; `fuel` bounds the number of decoded
code points and is in practice at least the byte count. -/
def utf8DecodeAux : Nat → List Nat → Option (List Nat)
  | _, [] => some []
  | 0, _ :: _ => none
  | fuel + 1, b :: rest =>
    match utf8Step (b :: rest) with
    | none => none
    | some (n, r) => (utf8DecodeAux fuel r).map (n :: ·)

/-- Decode UTF-8 bytes back to code points; `none` on malformed input
(CPython `bytes.decode("utf-8")`). -/
def utf8DecodeBytes (l : List Nat) : Option (List Nat) :=
  utf8DecodeAux l.length l

/-- Base64url-decode an unpadded base64url string to bytes: restore the `=`
padding and decode (`base64.urlsafe_b64decode`). `none` if a character is
outside the alphabet. -/
def fromBase64url (s : Str) : Option (List Nat) :=
  (s.mapM b64CharIndex).map decodeChunks

/-- Full inverse of `to_base64url`: restore padding, base64url-decode to
bytes, then UTF-8-decode back to a string. -/
def base64urlDecodeStr (s : Str) : Option Str :=
  (fromBase64url s).bind (fun bs => (utf8DecodeBytes bs).map (·.map Char.ofNat))

/-! ### Round-trip lemmas for `to_base64url` -/

theorem char_toNat_lt (c : Char) : c.toNat < 1114112 := by
  have h := c.valid
  unfold Char.toNat
  rcases h with h | h
  · omega
  · omega

theorem utf8EncodeChar_lt (n : Nat) (hn : n < 1114112) :
    ∀ b ∈ utf8EncodeChar n, b < 256 := by
  unfold utf8EncodeChar
  split
  · simp; omega
  · split
    · simp; omega
    · split
      · simp; omega
      · simp; omega

theorem strBytes_lt (s : Str) : ∀ b ∈ strBytes s, b < 256 := by
  intro b hb
  simp only [strBytes, List.mem_flatten, List.mem_map] at hb
  obtain ⟨l, ⟨c, _, rfl⟩, hbl⟩ := hb
  exact utf8EncodeChar_lt c.toNat (char_toNat_lt c) b hbl

theorem encodeChunks_lt (l : List Nat) (h : ∀ b ∈ l, b < 256) :
    ∀ i ∈ encodeChunks l, i < 64 := by
  induction l using encodeChunks.induct with
  | case1 => simp [encodeChunks]
  | case2 a =>
    have := h a (by simp)
    simp [encodeChunks]; omega
  | case3 a b =>
    have h1 := h a (by simp); have h2 := h b (by simp)
    simp [encodeChunks]; omega
  | case4 a b c rest ih =>
    have h1 := h a (by simp); have h2 := h b (by simp); have h3 := h c (by simp)
    simp only [encodeChunks, List.mem_cons]
    rintro i (rfl | rfl | rfl | rfl | hi)
    · omega
    · omega
    · omega
    · omega
    · exact ih (fun x hx => h x (by simp [hx])) i hi

theorem decodeChunks_encodeChunks (l : List Nat) (h : ∀ b ∈ l, b < 256) :
    decodeChunks (encodeChunks l) = l := by
  induction l using encodeChunks.induct with
  | case1 => rfl
  | case2 a =>
    have := h a (by simp)
    simp only [encodeChunks, decodeChunks]
    congr 1
    omega
  | case3 a b =>
    have h1 := h a (by simp); have h2 := h b (by simp)
    simp only [encodeChunks, decodeChunks]
    congr 1
    · omega
    · congr 1; omega
  | case4 a b c rest ih =>
    have h1 := h a (by simp); have h2 := h b (by simp); have h3 := h c (by simp)
    simp only [encodeChunks, decodeChunks]
    congr 1
    · omega
    · congr 1
      · omega
      · congr 1
        · omega
        · exact ih (fun x hx => h x (by simp [hx]))

theorem b64CharIndex_b64Char (i : Nat) (hi : i < 64) :
    b64CharIndex (b64Char i) = some i := by
  have key : ∀ j : Fin 64, b64CharIndex (b64Char j.val) = some j.val := by decide
  exact key ⟨i, hi⟩

theorem mapM_b64CharIndex (l : List Nat) (h : ∀ i ∈ l, i < 64) :
    (l.map b64Char).mapM b64CharIndex = some l := by
  induction l with
  | nil => rfl
  | cons x xs ih =>
    have hx := h x (by simp)
    simp only [List.map_cons, List.mapM_cons, b64CharIndex_b64Char x hx,
      ih (fun i hi => h i (by simp [hi]))]
    rfl

theorem fromBase64url_to (bs : List Nat) (h : ∀ b ∈ bs, b < 256) :
    fromBase64url ((encodeChunks bs).map b64Char) = some bs := by
  unfold fromBase64url
  rw [mapM_b64CharIndex _ (encodeChunks_lt bs h)]
  simp [decodeChunks_encodeChunks bs h]

theorem utf8Step_encodeChar (n : Nat) (hn : n < 1114112) (rest : List Nat) :
    utf8Step (utf8EncodeChar n ++ rest) = some (n, rest) := by
  by_cases h1 : n < 0x80
  · rw [utf8EncodeChar, if_pos h1]
    simp only [List.cons_append, List.nil_append, utf8Step, if_pos h1]
  · by_cases h2 : n < 0x800
    · rw [utf8EncodeChar, if_neg h1, if_pos h2]
      simp only [List.cons_append, List.nil_append, utf8Step]
      rw [if_neg (by omega), if_neg (by omega), if_pos (by omega)]
      simp only [utf8Take1]
      rw [if_pos (by constructor <;> omega)]
      have : (0xC0 + n / 64 - 0xC0) * 64 + (0x80 + n % 64 - 0x80) = n := by omega
      rw [this]
    · by_cases h3 : n < 0x10000
      · rw [utf8EncodeChar, if_neg h1, if_neg h2, if_pos h3]
        simp only [List.cons_append, List.nil_append, utf8Step]
        rw [if_neg (by omega), if_neg (by omega), if_neg (by omega),
          if_pos (by omega)]
        simp only [utf8Take2]
        rw [if_pos (by refine ⟨⟨?_, ?_⟩, ?_, ?_⟩ <;> omega)]
        have : (0xE0 + n / 4096 - 0xE0) * 4096 +
            (0x80 + n / 64 % 64 - 0x80) * 64 + (0x80 + n % 64 - 0x80) = n := by
          omega
        rw [this]
      · rw [utf8EncodeChar, if_neg h1, if_neg h2, if_neg h3]
        simp only [List.cons_append, List.nil_append, utf8Step]
        rw [if_neg (by omega), if_neg (by omega), if_neg (by omega),
          if_neg (by omega), if_pos (by omega)]
        simp only [utf8Take3]
        rw [if_pos (by refine ⟨⟨?_, ?_⟩, ⟨?_, ?_⟩, ?_, ?_⟩ <;> omega)]
        have : (0xF0 + n / 262144 - 0xF0) * 262144 +
            (0x80 + n / 4096 % 64 - 0x80) * 4096 +
            (0x80 + n / 64 % 64 - 0x80) * 64 + (0x80 + n % 64 - 0x80) = n := by
          omega
        rw [this]

theorem utf8EncodeChar_ne_nil (n : Nat) : utf8EncodeChar n ≠ [] := by
  unfold utf8EncodeChar
  split
  · simp
  · split
    · simp
    · split
      · simp
      · simp

theorem utf8DecodeAux_strBytes (s : Str) :
    ∀ fuel, (strBytes s).length ≤ fuel →
      utf8DecodeAux fuel (strBytes s) = some (s.map Char.toNat) := by
  induction s with
  | nil => intro fuel _; simp [strBytes, utf8DecodeAux]
  | cons c cs ih =>
    intro fuel hf
    have hsplit : strBytes (c :: cs) = utf8EncodeChar c.toNat ++ strBytes cs := by
      simp [strBytes]
    rw [hsplit] at hf ⊢
    obtain ⟨b, bs, henc⟩ : ∃ b bs, utf8EncodeChar c.toNat = b :: bs := by
      cases h : utf8EncodeChar c.toNat with
      | nil => exact absurd h (utf8EncodeChar_ne_nil c.toNat)
      | cons b bs => exact ⟨b, bs, rfl⟩
    have hlen : 1 ≤ (utf8EncodeChar c.toNat).length := by simp [henc]
    cases fuel with
    | zero =>
      exfalso
      rw [List.length_append] at hf
      omega
    | succ f =>
      rw [henc, List.cons_append, utf8DecodeAux, ← List.cons_append, ← henc,
        utf8Step_encodeChar c.toNat (char_toNat_lt c)]
      have hrec : utf8DecodeAux f (strBytes cs) = some (cs.map Char.toNat) := by
        apply ih
        rw [List.length_append] at hf
        omega
      simp [hrec]

theorem utf8DecodeBytes_strBytes (s : Str) :
    utf8DecodeBytes (strBytes s) = some (s.map Char.toNat) :=
  utf8DecodeAux_strBytes s (strBytes s).length le_rfl

theorem b64Char_good (i : Nat) (hi : i < 64) :
    (!(b64Char i == '=') && !(b64Char i == '+') && !(b64Char i == '/')) =
      true := by
  have key : ∀ j : Fin 64,
      (!(b64Char j.val == '=') && !(b64Char j.val == '+') &&
        !(b64Char j.val == '/')) = true := by decide
  exact key ⟨i, hi⟩

/-- C8: for every string `s`, `to_base64url s` contains no `=` padding and no
`+` or `/` characters, and base64url-decoding the result (restoring the `=`
padding) reproduces `s` exactly. -/
theorem C8_to_base64url_roundtrip (s : Str) :
    ((to_base64url s).all
      (fun c => !(c == '=') && !(c == '+') && !(c == '/')) = true) ∧
    base64urlDecodeStr (to_base64url s) = some s := by
  constructor
  · rw [List.all_eq_true]
    intro c hc
    simp only [to_base64url, List.mem_map] at hc
    obtain ⟨i, hi, rfl⟩ := hc
    exact b64Char_good i (encodeChunks_lt _ (strBytes_lt s) i hi)
  · unfold base64urlDecodeStr to_base64url
    rw [fromBase64url_to _ (strBytes_lt s)]
    simp only [Option.bind_some, Option.some_bind]
    rw [utf8DecodeBytes_strBytes]
    simp only [Option.map_some']
    congr 1
    rw [List.map_map]
    exact List.map_id'' (fun c => Char.ofNat_toNat c) s

/-! ## The environment loader (`load_env_from_file`, source lines 8-26)

The process environment is an association list with at most one entry per
key: `envSet` overwrites in place or appends, `envPop` removes, mirroring
`os.environ[k] = v` and `os.environ.pop(k, None)`.  The `env_vars` dict of
remembered prior values is `SavedMap`, with the same update-in-place
semantics as a Python dict.

`load_env_from_file` strips each line, skips blank lines and lines starting
with `#`, splits the rest on the first `=` (a line without `=` raises
`ValueError`, stopping the load), remembers `os.getenv(key)` in `env_vars`,
and sets the new value; the `finally` block then restores every remembered
key (deleting keys whose remembered value is `None`).  Since the wrapped
body performs no environment mutation, scope exit — normal or by exception —
always runs the same restoration, so the embedding models the environment
after the scope exits as `load_env_scope`.
-/

/-- The process environment: at most one value per key. -/
abbrev EnvMap := List (Str × Str)

/-- The remembered prior values (`env_vars`): `none` records that the key was
unset before the load. -/
abbrev SavedMap := List (Str × Option Str)

/-- `os.getenv k`. -/
def envGet (e : EnvMap) (k : Str) : Option Str :=
  (e.find? (fun p => decide (p.1 = k))).map (·.2)

/-- `os.environ[k] = v`: overwrite in place, else append. -/
def envSet (e : EnvMap) (k : Str) (v : Str) : EnvMap :=
  match e with
  | [] => [(k, v)]
  | (k', v') :: rest =>
      if k' = k then (k', v) :: rest else (k', v') :: envSet rest k v

/-- `os.environ.pop(k, None)`. -/
def envPop (e : EnvMap) (k : Str) : EnvMap :=
  e.filter (fun p => decide (p.1 ≠ k))

/-- `env_vars[k]`, if the dict has the key. -/
def savedGet (s : SavedMap) (k : Str) : Option (Option Str) :=
  (s.find? (fun p => decide (p.1 = k))).map (·.2)

/-- `env_vars[k] = ov`: dict update in place, else append. -/
def savedSet (s : SavedMap) (k : Str) (ov : Option Str) : SavedMap :=
  match s with
  | [] => [(k, ov)]
  | (k', ov') :: rest =>
      if k' = k then (k', ov) :: rest else (k', ov') :: savedSet rest k ov

/-- Python `str.strip` on a line (ASCII whitespace). -/
def isSpaceChar (c : Char) : Bool :=
  c == ' ' || c == '\t' || c == '\n' || c == '\r' || c == '\x0b' || c == '\x0c'

/-- Strip leading and trailing whitespace. -/
def stripStr (l : Str) : Str :=
  ((l.dropWhile isSpaceChar).reverse.dropWhile isSpaceChar).reverse

/-- `line.split("=", 1)`: split at the first `=`; `none` when there is no
`=` (unpacking then raises `ValueError`). -/
def splitEq : Str → Option (Str × Str)
  | [] => none
  | c :: rest =>
      if c = '=' then some ([], rest)
      else (splitEq rest).map (fun p => (c :: p.1, p.2))

/-- Classify one line of the env file: `none` = malformed (raises
`ValueError`), `some none` = skipped (blank or `#` comment), and
`some (some (k, v))` = a `KEY=VALUE` line to apply. -/
def lineKV (line : Str) : Option (Option (Str × Str)) :=
  let l := stripStr line
  if l = [] then some none
  else if l.head? = some '#' then some none
  else match splitEq l with
    | none => none
    | some kv => some (some kv)

/-- Process one line of the file against the saved/env state; `none` on a
malformed line (the `ValueError` aborts the load inside the `try`). -/
def applyLine (st : SavedMap × EnvMap) (line : Str) :
    Option (SavedMap × EnvMap) :=
  match lineKV line with
  | none => none
  | some none => some st
  | some (some (k, v)) =>
      some (savedSet st.1 k (envGet st.2 k), envSet st.2 k v)

/-- Process the lines in order, stopping at the first malformed line. -/
def applyAll : List Str → SavedMap × EnvMap → SavedMap × EnvMap
  | [], st => st
  | line :: rest, st =>
      match applyLine st line with
      | none => st
      | some st' => applyAll rest st'

/-- The `finally` block of `load_env_from_file`: restore every remembered
key, deleting keys that were previously unset. -/
def restoreEnv (s : SavedMap) (env : EnvMap) : EnvMap :=
  s.foldl
    (fun e p =>
      match p.2 with
      | none => envPop e p.1
      | some v => envSet e p.1 v)
    env

/-- The process environment after the `load_env_from_file` scope exits
(normally or by exception), given the file's lines and the initial
environment. -/
def load_env_scope (lines : List Str) (env0 : EnvMap) : EnvMap :=
  let st := applyAll lines ([], env0)
  restoreEnv st.1 st.2

/-- The values applied for key `K`, in order, over the lines the loader
actually processes (processing stops at the first malformed line). -/
def occVals (lines : List Str) (K : Str) : List Str :=
  ((lines.takeWhile (fun l => (lineKV l).isSome)).filterMap lineKV).filterMap
    (fun kv =>
      match kv with
      | some (k, v) => if k = K then some v else none
      | none => none)

/-- The last element of `vs` as an option, defaulting to `d`. -/
def lastOr (vs : List Str) (d : Option Str) : Option Str :=
  match vs.getLast? with
  | some v => some v
  | none => d

/-! ### Lookup lemmas for the environment maps -/

theorem lastOr_cons (v : Str) (vs : List Str) (d : Option Str) :
    lastOr (v :: vs) d = lastOr vs (some v) := by
  cases vs with
  | nil => rfl
  | cons w ws =>
    unfold lastOr
    rw [List.getLast?_cons_cons]
    cases h : (w :: ws).getLast? with
    | none =>
      rw [List.getLast?_eq_none_iff] at h
      exact absurd h (by simp)
    | some x => rfl

theorem envGet_envSet_self (e : EnvMap) (k : Str) (v : Str) :
    envGet (envSet e k v) k = some v := by
  induction e with
  | nil => simp [envSet, envGet, List.find?]
  | cons p rest ih =>
    by_cases h : p.1 = k
    · simp [envSet, envGet, List.find?, h]
    · simp only [envSet]
      rw [show (p.1, p.2) = p from rfl, if_neg h]
      simpa [envGet, List.find?_cons, h] using ih

theorem envGet_envSet_ne (e : EnvMap) (k k' : Str) (v : Str) (h : k' ≠ k) :
    envGet (envSet e k' v) k = envGet e k := by
  induction e with
  | nil => simp [envSet, envGet, List.find?, h]
  | cons p rest ih =>
    by_cases hp : p.1 = k'
    · simp only [envSet]
      rw [show (p.1, p.2) = p from rfl, if_pos hp]
      simp [envGet, List.find?_cons, hp, h]
    · simp only [envSet]
      rw [show (p.1, p.2) = p from rfl, if_neg hp]
      by_cases hk : p.1 = k
      · simp [envGet, List.find?_cons, hk]
      · simpa [envGet, List.find?_cons, hk] using ih

theorem envGet_envPop_self (e : EnvMap) (k : Str) :
    envGet (envPop e k) k = none := by
  induction e with
  | nil => rfl
  | cons p rest ih =>
    by_cases h : p.1 = k
    · rw [show envPop (p :: rest) k = envPop rest k from by
        simp [envPop, List.filter_cons, h]]
      exact ih
    · rw [show envPop (p :: rest) k = p :: envPop rest k from by
        simp [envPop, List.filter_cons, h]]
      rw [show envGet (p :: envPop rest k) k = envGet (envPop rest k) k from by
        simp [envGet, List.find?_cons, h]]
      exact ih

theorem envGet_envPop_ne (e : EnvMap) (k k' : Str) (h : k' ≠ k) :
    envGet (envPop e k') k = envGet e k := by
  induction e with
  | nil => rfl
  | cons p rest ih =>
    by_cases hp : p.1 = k'
    · have hpk : p.1 ≠ k := by rw [hp]; exact h
      rw [show envPop (p :: rest) k' = envPop rest k' from by
        simp [envPop, List.filter_cons, hp]]
      rw [ih]
      simp [envGet, List.find?_cons, hpk]
    · rw [show envPop (p :: rest) k' = p :: envPop rest k' from by
        simp [envPop, List.filter_cons, hp]]
      by_cases hk : p.1 = k
      · simp [envGet, List.find?_cons, hk]
      · simpa [envGet, List.find?_cons, hk] using ih

theorem savedGet_savedSet_self (s : SavedMap) (k : Str) (ov : Option Str) :
    savedGet (savedSet s k ov) k = some ov := by
  induction s with
  | nil => simp [savedSet, savedGet, List.find?]
  | cons p rest ih =>
    by_cases h : p.1 = k
    · simp [savedSet, savedGet, List.find?, h]
    · simp only [savedSet]
      rw [show (p.1, p.2) = p from rfl, if_neg h]
      simpa [savedGet, List.find?_cons, h] using ih

theorem savedGet_savedSet_ne (s : SavedMap) (k k' : Str) (ov : Option Str)
    (h : k' ≠ k) : savedGet (savedSet s k' ov) k = savedGet s k := by
  induction s with
  | nil => simp [savedSet, savedGet, List.find?, h]
  | cons p rest ih =>
    by_cases hp : p.1 = k'
    · simp only [savedSet]
      rw [show (p.1, p.2) = p from rfl, if_pos hp]
      simp [savedGet, List.find?_cons, hp, h]
    · simp only [savedSet]
      rw [show (p.1, p.2) = p from rfl, if_neg hp]
      by_cases hk : p.1 = k
      · simp [savedGet, List.find?_cons, hk]
      · simpa [savedGet, List.find?_cons, hk] using ih

theorem mem_savedSet_keys (s : SavedMap) (k x : Str) (ov : Option Str)
    (hx : x ∈ (savedSet s k ov).map (·.1)) :
    x ∈ s.map (·.1) ∨ x = k := by
  induction s with
  | nil => simpa [savedSet] using hx
  | cons p rest ih =>
    by_cases hp : p.1 = k
    · simp only [savedSet] at hx
      rw [show (p.1, p.2) = p from rfl, if_pos hp] at hx
      simp only [List.map_cons, List.mem_cons] at hx
      rcases hx with h | h
      · exact Or.inl (by simp [h])
      · exact Or.inl (by simp [h])
    · simp only [savedSet] at hx
      rw [show (p.1, p.2) = p from rfl, if_neg hp] at hx
      simp only [List.map_cons, List.mem_cons] at hx
      rcases hx with h | h
      · exact Or.inl (by simp [h])
      · rcases ih h with h' | h'
        · exact Or.inl (by simp [h'])
        · exact Or.inr h'

theorem savedSet_keys_nodup (s : SavedMap) (k : Str) (ov : Option Str)
    (h : (s.map (·.1)).Nodup) : ((savedSet s k ov).map (·.1)).Nodup := by
  induction s with
  | nil => simp [savedSet]
  | cons p rest ih =>
    simp only [List.map_cons, List.nodup_cons] at h
    by_cases hp : p.1 = k
    · simp only [savedSet]
      rw [show (p.1, p.2) = p from rfl, if_pos hp]
      simp only [List.map_cons, List.nodup_cons]
      exact h
    · simp only [savedSet]
      rw [show (p.1, p.2) = p from rfl, if_neg hp]
      simp only [List.map_cons, List.nodup_cons]
      refine ⟨fun hmem => ?_, ih h.2⟩
      rcases mem_savedSet_keys rest k p.1 ov hmem with h' | h'
      · exact h.1 h'
      · exact hp h'

theorem restoreEnv_not_mem (s : SavedMap) (env : EnvMap) (k : Str)
    (h : k ∉ s.map (·.1)) : envGet (restoreEnv s env) k = envGet env k := by
  induction s generalizing env with
  | nil => rfl
  | cons p rest ih =>
    obtain ⟨k0, ov⟩ := p
    simp only [List.map_cons, List.mem_cons, not_or] at h
    cases ov with
    | none =>
      show envGet (restoreEnv rest (envPop env k0)) k = _
      rw [ih _ h.2]
      exact envGet_envPop_ne env k k0 (fun he => h.1 he.symm)
    | some v =>
      show envGet (restoreEnv rest (envSet env k0 v)) k = _
      rw [ih _ h.2]
      exact envGet_envSet_ne env k k0 v (fun he => h.1 he.symm)

theorem restoreEnv_lookup (s : SavedMap) (env : EnvMap) (k : Str)
    (h : (s.map (·.1)).Nodup) :
    envGet (restoreEnv s env) k =
      match savedGet s k with
      | none => envGet env k
      | some none => none
      | some (some v) => some v := by
  induction s generalizing env with
  | nil => rfl
  | cons p rest ih =>
    obtain ⟨k0, ov⟩ := p
    simp only [List.map_cons, List.nodup_cons] at h
    cases ov with
    | none =>
      show envGet (restoreEnv rest (envPop env k0)) k = _
      by_cases hp : k0 = k
      · subst hp
        rw [restoreEnv_not_mem rest _ k0 h.1, envGet_envPop_self]
        simp [savedGet, List.find?_cons]
      · rw [ih _ h.2, envGet_envPop_ne env k k0 hp]
        simp [savedGet, List.find?_cons, hp]
    | some v =>
      show envGet (restoreEnv rest (envSet env k0 v)) k = _
      by_cases hp : k0 = k
      · subst hp
        rw [restoreEnv_not_mem rest _ k0 h.1, envGet_envSet_self]
        simp [savedGet, List.find?_cons]
      · rw [ih _ h.2, envGet_envSet_ne env k k0 v hp]
        simp [savedGet, List.find?_cons, hp]

theorem applyLine_eq (st : SavedMap × EnvMap) (line : Str) :
    applyLine st line =
      match lineKV line with
      | none => none
      | some none => some st
      | some (some (k, v)) =>
          some (savedSet st.1 k (envGet st.2 k), envSet st.2 k v) := rfl

theorem applyAll_cons (line : Str) (rest : List Str) (st : SavedMap × EnvMap) :
    applyAll (line :: rest) st =
      match applyLine st line with
      | none => st
      | some st' => applyAll rest st' := rfl

theorem occVals_nil (K : Str) : occVals [] K = [] := rfl

theorem occVals_cons_bad (line : Str) (rest : List Str) (K : Str)
    (h : lineKV line = none) : occVals (line :: rest) K = [] := by
  simp [occVals, List.takeWhile_cons, h]

theorem occVals_cons_skip (line : Str) (rest : List Str) (K : Str)
    (h : lineKV line = some none) : occVals (line :: rest) K = occVals rest K := by
  simp [occVals, List.takeWhile_cons, h]

theorem occVals_cons_kv (line : Str) (rest : List Str) (K k : Str) (v : Str)
    (h : lineKV line = some (some (k, v))) :
    occVals (line :: rest) K =
      if k = K then v :: occVals rest K else occVals rest K := by
  by_cases hk : k = K
  · simp [occVals, List.takeWhile_cons, h, List.filterMap_cons, hk]
  · simp [occVals, List.takeWhile_cons, h, List.filterMap_cons, hk]

theorem applyAll_keys_nodup (lines : List Str) :
    ∀ st : SavedMap × EnvMap, (st.1.map (·.1)).Nodup →
      ((applyAll lines st).1.map (·.1)).Nodup := by
  induction lines with
  | nil => intro st h; exact h
  | cons line rest ih =>
    intro st h
    rw [applyAll_cons, applyLine_eq]
    cases hkv : lineKV line with
    | none => exact h
    | some o =>
      cases o with
      | none => exact ih st h
      | some kv =>
        obtain ⟨k, v⟩ := kv
        exact ih _ (savedSet_keys_nodup st.1 k _ h)

theorem applyAll_lookup (lines : List Str) :
    ∀ (S0 : SavedMap) (E0 : EnvMap) (K : Str),
      envGet (applyAll lines (S0, E0)).2 K =
        lastOr (occVals lines K) (envGet E0 K) ∧
      savedGet (applyAll lines (S0, E0)).1 K =
        (if occVals lines K = [] then savedGet S0 K
         else some (lastOr (occVals lines K).dropLast (envGet E0 K))) := by
  induction lines with
  | nil =>
    intro S0 E0 K
    exact ⟨rfl, by simp [occVals_nil, applyAll]⟩
  | cons line rest ih =>
    intro S0 E0 K
    rw [applyAll_cons, applyLine_eq]
    cases hkv : lineKV line with
    | none =>
      rw [occVals_cons_bad line rest K hkv]
      exact ⟨rfl, by simp [lastOr]⟩
    | some o =>
      cases o with
      | none =>
        rw [occVals_cons_skip line rest K hkv]
        exact ih S0 E0 K
      | some kv =>
        obtain ⟨k, v⟩ := kv
        rw [occVals_cons_kv line rest K k v hkv]
        by_cases hk : k = K
        · subst hk
          rw [if_pos rfl]
          obtain ⟨ihE, ihS⟩ :=
            ih (savedSet S0 k (envGet E0 k)) (envSet E0 k v) k
          constructor
          · rw [ihE, lastOr_cons, envGet_envSet_self]
          · rw [ihS, savedGet_savedSet_self, envGet_envSet_self]
            by_cases hocc : occVals rest k = []
            · rw [if_pos hocc, hocc]
              simp [lastOr]
            · rw [if_neg hocc,
                List.dropLast_cons_of_ne_nil hocc, lastOr_cons]
              simp [List.cons_ne_nil]
        · rw [if_neg hk]
          obtain ⟨ihE, ihS⟩ :=
            ih (savedSet S0 k (envGet E0 k)) (envSet E0 k v) K
          constructor
          · rw [ihE, envGet_envSet_ne E0 K k v hk]
          · rw [ihS, savedGet_savedSet_ne S0 K k (envGet E0 k) hk,
              envGet_envSet_ne E0 K k v hk]

/-- Master characterisation of `load_env_from_file`: after the scope exits,
a key `K` holds the value applied from the second-to-last processed
`K=...` line, or its pre-load value when `K` was applied at most once. -/
theorem load_env_scope_lookup (lines : List Str) (env0 : EnvMap) (K : Str) :
    envGet (load_env_scope lines env0) K =
      lastOr (occVals lines K).dropLast (envGet env0 K) := by
  unfold load_env_scope
  have hnodup := applyAll_keys_nodup lines ([], env0) (by simp)
  rw [restoreEnv_lookup _ _ _ hnodup]
  obtain ⟨hE, hS⟩ := applyAll_lookup lines [] env0 K
  rw [hS]
  by_cases hocc : occVals lines K = []
  · rw [if_pos hocc]
    show envGet (applyAll lines ([], env0)).2 K = _
    rw [hE, hocc]
    rfl
  · rw [if_neg hocc]
    cases hw : lastOr (occVals lines K).dropLast (envGet env0 K) with
    | none => rfl
    | some v => rfl

/-- C9 (amended): after the `load_env_from_file` scope exits — including when
the wrapped logic raises — every environment variable named by a non-empty,
non-comment `KEY=VALUE` line of the file is restored to its value from before
the load (unset again if it was unset), provided the key is applied by at
most one line of the file.  (With duplicate keys restoration fails; see the
C10 theorems.) -/
theorem C9_env_restored (lines : List Str) (env0 : EnvMap) (K : Str)
    (h : (occVals lines K).length ≤ 1) :
    envGet (load_env_scope lines env0) K = envGet env0 K := by
  rw [load_env_scope_lookup]
  cases hocc : occVals lines K with
  | nil => rfl
  | cons v t =>
    cases t with
    | nil => rfl
    | cons w t' => rw [hocc] at h; simp at h

/-- Witness for `C9_env_restored`: a one-line file `FOO=1` over an
environment where `FOO` is `0`; after the scope exits `FOO` is `0` again. -/
theorem C9_env_restored_witness :
    envGet (load_env_scope [("FOO=1").toList]
        [(("FOO").toList, ("0").toList)]) (("FOO").toList) =
      envGet [(("FOO").toList, ("0").toList)] (("FOO").toList) :=
  C9_env_restored [("FOO=1").toList] [(("FOO").toList, ("0").toList)]
    (("FOO").toList) (by decide)

/-- Counterexample to C9 as stated: with the two-line file `K=a`, `K=b` and
`K` initially unset, after the scope exits `K` is set to `a` instead of being
unset again — the loader does not restore `K` to its pre-load state. -/
theorem C9_counterexample :
    envGet (load_env_scope [("K=a").toList, ("K=b").toList] []) (("K").toList)
        = some (("a").toList) ∧
    envGet (load_env_scope [("K=a").toList, ("K=b").toList] []) (("K").toList)
        ≠ envGet ([] : EnvMap) (("K").toList) := by
  constructor
  · decide
  · decide

/-- C10 (amended): when the env file applies the same key `K` two or more
times, the loader's remembered prior value for `K` is overwritten by the
value applied from the preceding occurrence, so after the scope exits `K` is
left set to the value of the second-to-last occurrence of `K` (the first
line's value when `K` occurs exactly twice) rather than restored to its
pre-load state; in particular a key unset before the load remains set. -/
theorem C10_duplicate_key_overwrites (lines : List Str) (env0 : EnvMap)
    (K v : Str) (h : (occVals lines K).dropLast.getLast? = some v) :
    envGet (load_env_scope lines env0) K = some v := by
  rw [load_env_scope_lookup]
  unfold lastOr
  rw [h]

/-- Witness for `C10_duplicate_key_overwrites`: the two-line file `K=a`,
`K=b` over an empty environment leaves `K` set to `a` after the scope
exits. -/
theorem C10_duplicate_key_overwrites_witness :
    envGet (load_env_scope [("K=a").toList, ("K=b").toList] []) (("K").toList)
      = some (("a").toList) :=
  C10_duplicate_key_overwrites [("K=a").toList, ("K=b").toList] []
    (("K").toList) (("a").toList) (by decide)

/-- Counterexample to C10 as stated: with the three-line file `K=a`, `K=b`,
`K=c`, after the scope exits `K` is left at `b` (the second-to-last
occurrence), not at the file's first value `a` as the claim asserts. -/
theorem C10_counterexample :
    envGet (load_env_scope
        [("K=a").toList, ("K=b").toList, ("K=c").toList] []) (("K").toList)
      ≠ some (("a").toList) ∧
    envGet (load_env_scope
        [("K=a").toList, ("K=b").toList, ("K=c").toList] []) (("K").toList)
      = some (("b").toList) := by
  constructor
  · decide
  · decide

/-! ## JSON values, Python errors, configuration, HTTP oracles

`JVal` models the dynamically-typed values flowing through the script
(parsed JSON bodies, labels, descriptor payloads); `PyErr` models the
exceptions the script can raise.  HTTP responses are given by oracles: the
fetch oracle maps a submodel id to the source GET response (with the body
already JSON-parsed; a body that is not valid JSON at all would raise inside
`resp.json()` and is outside the claims' scope), the post oracle maps a
submodel id to the destination POST status, and the token endpoint's
response is a single fixed value.  Every network request the code issues is
recorded as a `NetAction`.
-/

/-- A Python/JSON value. -/
inductive JVal where
  | jnull
  | jbool (b : Bool)
  | jnum (n : Int)
  | jstr (s : Str)
  | jarr (xs : List JVal)
  | jobj (fields : List (Str × JVal))

/-- An exception raised by the script. -/
inductive PyErr where
  /-- `ValueError(msg)` from the descriptor builders. -/
  | valueError (msg : Str)
  /-- `RuntimeError(f"Token request failed ({status}): {text}")`
  (source lines 73-76): carries the status code and response body. -/
  | tokenReqFailed (status : Nat) (text : Str)
  /-- `RuntimeError("Token response did not contain 'access_token'.")`
  (source lines 78-79): carries neither status nor body. -/
  | tokenMissing
  /-- `AttributeError`: `.get` on a non-dict, or `.encode` on a non-str. -/
  | attrError
  deriving DecidableEq

/-- Whether the error is the token-request failure carrying the HTTP status
code and response body. -/
def carriesStatusBody : PyErr → Bool
  | .tokenReqFailed _ _ => true
  | _ => false

/-- An HTTP response: status code, JSON-parsed body, raw text. -/
structure HttpResp where
  status : Nat
  body : JVal
  text : Str

/-- A network request issued by the script. -/
inductive NetAction where
  /-- `requests.post(TOKEN_URL, ...)` (source line 70). -/
  | tokenPost
  /-- `requests.get(url, ...)` against the source (source line 200). -/
  | sourceGet (url : Str)
  /-- `requests.post(DEST_URL, ...)` (source line 227). -/
  | destPost (url : Str) (body : JVal)
  /-- `requests.post(DTR_SM_DESCR_URL, ...)` (source line 122). -/
  | dirPost (url : Str) (body : JVal)

/-- Whether an action is a POST to the directory endpoint
(`post_sm_descriptor`'s request). -/
def isDirPost : NetAction → Bool
  | .dirPost _ _ => true
  | _ => false

/-- Whether an action is a POST of any kind (token, destination or
directory). -/
def isPost : NetAction → Bool
  | .tokenPost => true
  | .destPost _ _ => true
  | .dirPost _ _ => true
  | .sourceGet _ => false

/-- The configuration constants bound in `main` (source lines 35-61). -/
structure Config where
  /-- `ASSETS` (line 52). -/
  assets : List Str
  /-- `SM_URN_SUFFIX` (line 50). -/
  suffixes : List Str
  /-- `SM_URN_PREFIX` (line 49). -/
  smUrnHead : Str
  /-- `SOURCE_URL` (line 35). -/
  sourceUrl : Str
  /-- `DEST_URL` (line 38). -/
  destUrl : Str
  /-- `DTR_SM_DESCR_URL` (line 57). -/
  dtrSmDescrUrl : Str
  /-- `DATA_PLANE_URL` (line 58). -/
  dataPlaneUrl : Str
  /-- `SUBPROTOCOL_BODY` (line 56). -/
  subprotocolBody : Str
  /-- `DRY_RUN` (line 61). -/
  dryRun : Bool

/-- `dict.get(k)` on a JSON object's fields. -/
def jGet (fields : List (Str × JVal)) (k : Str) : Option JVal :=
  (fields.find? (fun p => decide (p.1 = k))).map (·.2)

/-- Python falsiness (`not token`). -/
def pyFalsy : JVal → Bool
  | .jnull => true
  | .jbool b => !b
  | .jnum n => n == 0
  | .jstr s => s.isEmpty
  | .jarr xs => xs.isEmpty
  | .jobj fs => fs.isEmpty

/-- Whether the value is a dict (`isinstance(x, dict)`). -/
def isJObj : JVal → Bool
  | .jobj _ => true
  | _ => false

/-- `get_oauth_token` (source lines 63-80), as a function of the token
endpoint's response: non-200 raises with status and body; then a missing or
falsy `access_token` field raises without them; otherwise the token is
returned. -/
def get_oauth_token (resp : HttpResp) : Except PyErr JVal :=
  if resp.status ≠ 200 then .error (.tokenReqFailed resp.status resp.text)
  else
    match resp.body with
    | .jobj fields =>
        let token := (jGet fields (("access_token").toList)).getD .jnull
        if pyFalsy token then .error .tokenMissing else .ok token
    | _ => .error .attrError

/-! ## Descriptor builders (source lines 82-107 and 139-176) -/

/-- One submodel-descriptor dict as built in the body of
`create_submodel_descriptor`'s loop (source lines 146-175): the `href` is
`DATA_PLANE_URL` + `/` + base64url of the submodel id. -/
def smDescriptor (cfg : Config) (submodelId : Str) : JVal :=
  .jobj [
    (("id").toList, .jstr submodelId),
    (("semanticId").toList, .jnull),
    (("endpoints").toList, .jarr [
      .jobj [
        (("interface").toList, .jstr (("SUBMODEL-3.0").toList)),
        (("protocolInformation").toList, .jobj [
          (("href").toList,
            .jstr (cfg.dataPlaneUrl ++ '/' :: to_base64url submodelId)),
          (("endpointProtocol").toList, .jstr (("HTTP").toList)),
          (("endpointProtocolVersion").toList,
            .jarr [.jstr (("1.1").toList)]),
          (("subprotocol").toList, .jstr (("DSP").toList)),
          (("subprotocolBody").toList, .jstr cfg.subprotocolBody),
          (("subprotocolBodyEncoding").toList, .jstr (("plain").toList)),
          (("securityAttributes").toList, .jarr [
            .jobj [
              (("type").toList, .jstr (("NONE").toList)),
              (("key").toList, .jstr (("NONE").toList)),
              (("value").toList, .jstr (("NONE").toList))]])])]])]

/-- `create_submodel_descriptor` (source lines 139-176).  An empty list (or,
in Python, a non-list) raises `ValueError`.  The `return` statement at line
176 sits INSIDE the `for` loop, so the function returns after building the
descriptor of the FIRST id only; `to_base64url` on a non-string id would
raise `AttributeError` (`.encode` missing). -/
def create_submodel_descriptor (cfg : Config) (submodelIds : List JVal) :
    Except PyErr (List JVal) :=
  match submodelIds with
  | [] => .error (.valueError (("submodel_id must be a non-empty list").toList))
  | id0 :: _ =>
      match id0 with
      | .jstr s => .ok [smDescriptor cfg s]
      | _ => .error .attrError

/-- `create_shell_descriptor` (source lines 82-107): validates the asset and
the descriptor list, then wraps the descriptors with a fresh
`urn:uuid:{uuid4()}` id (the generated UUID is passed in as an oracle) and
the asset name as both `idShort` and `globalAssetId`.  Assets are strings
throughout the script, so the `isinstance(asset, str)` arm is not
representable in the typed embedding. -/
def create_shell_descriptor (uuid : Str) (asset : Str)
    (submodelDescriptors : List JVal) : Except PyErr JVal :=
  if asset.isEmpty then
    .error (.valueError (("asset must be a non-empty string.").toList))
  else if !(submodelDescriptors.all isJObj) then
    .error (.valueError (("submodel_descriptors must be a list of dicts.").toList))
  else
    .ok (.jobj [
      (("id").toList, .jstr ((("urn:uuid:").toList) ++ uuid)),
      (("idShort").toList, .jstr asset),
      (("globalAssetId").toList, .jstr asset),
      (("submodelDescriptors").toList, .jarr submodelDescriptors)])

/-- Outcome classification printed by `post_sm_descriptor`. -/
inductive DirPostOutcome where
  | ok
  | skipExists
  | fail (status : Nat) (text : Str)

/-- `post_sm_descriptor` (source lines 109-137): in dry-run mode it returns
without any network call; otherwise it POSTs the payload to the directory
endpoint and classifies the status (200/201 = ok, 409 = skip-as-exists,
other = fail).  NOTE: nothing in `replication.py` ever calls this
function. -/
def post_sm_descriptor (cfg : Config) (payload : JVal) (dirStatus : Nat)
    (dirText : Str) : List NetAction × Option DirPostOutcome :=
  if cfg.dryRun then ([], none)
  else
    ([.dirPost cfg.dtrSmDescrUrl payload],
     some (if dirStatus = 200 ∨ dirStatus = 201 then .ok
           else if dirStatus = 409 then .skipExists
           else .fail dirStatus dirText))

/-! ## The generator `fetch_and_post_submodels` (source lines 178-252) and
the driver (source lines 254-282)

Per item (one submodel id), the generator GETs the source URL; a non-200
status or a non-dict body yields `("failed", sm_id)` and the loop continues;
in dry-run mode a successfully fetched item yields `("dry_run", label)`
without posting; otherwise the fetched submodel is POSTed to the destination
and the status is classified as posted / skipped (409) / failed, appending
the label to `posted_submodels` in the first two cases.  After the loops the
generator calls `create_submodel_descriptor(posted_submodels)` (which raises
`ValueError` when nothing was posted or skipped) and
`create_shell_descriptor` on the stale loop variable `asset` — the LAST
element of `ASSETS`; the built shell descriptor is bound to a local and
never posted.  Finally it yields the extra pair
`("posted_submodels", posted_submodels)`, which the driver's tally loop
counts like any other item.
-/

/-- The submodel ids of one asset (source line 194):
`SM_URN_PREFIX + asset + suffix` for each suffix. -/
def smIdsFor (cfg : Config) (asset : Str) : List Str :=
  cfg.suffixes.map (fun suffix => cfg.smUrnHead ++ asset ++ suffix)

/-- All submodel ids in iteration order (outer loop over assets, inner loop
over suffixes, source lines 188-197). -/
def allSmIds (cfg : Config) : List Str :=
  (cfg.assets.map (smIdsFor cfg)).flatten

/-- What processing one submodel id produces: the yielded
`(result_type, label)` pair, the labels appended to `posted_submodels`, and
the network requests issued. -/
structure ItemStep where
  yld : Str × JVal
  present : List JVal
  acts : List NetAction

/-- Processing of one submodel id (source lines 197-247). -/
def processItem (cfg : Config) (fetchO : Str → HttpResp) (postO : Str → Nat)
    (smId : Str) : ItemStep :=
  let resp := fetchO smId
  let getAct := NetAction.sourceGet (cfg.sourceUrl ++ '/' :: smId)
  if resp.status ≠ 200 then
    ⟨(("failed").toList, .jstr smId), [], [getAct]⟩
  else
    match resp.body with
    | .jobj fields =>
        let label := (jGet fields (("id").toList)).getD .jnull
        if cfg.dryRun then
          ⟨(("dry_run").toList, label), [], [getAct]⟩
        else
          let ps := postO smId
          let postAct := NetAction.destPost cfg.destUrl (.jobj fields)
          if ps = 200 ∨ ps = 201 then
            ⟨(("posted").toList, label), [label], [getAct, postAct]⟩
          else if ps = 409 then
            ⟨(("skipped").toList, label), [label], [getAct, postAct]⟩
          else
            ⟨(("failed").toList, label), [], [getAct, postAct]⟩
    | _ => ⟨(("failed").toList, .jstr smId), [], [getAct]⟩

/-- What a full run of the generator produces: the yielded pairs, the
accumulated `posted_submodels`, the shell descriptor built (never posted),
the exception raised in the post-loop section if any, and the request
trace. -/
structure GenResult where
  yields : List (Str × JVal)
  present : List JVal
  shell : Option JVal
  err : Option PyErr
  acts : List NetAction

/-- `fetch_and_post_submodels` (source lines 178-252).  The post-loop
section runs `create_submodel_descriptor` on the accumulated labels — which
raises `ValueError` when the list is empty — and `create_shell_descriptor`
on the stale loop variable `asset` (the last element of `ASSETS`; with no
assets the `posted_submodels` list is empty, so the `ValueError` fires
before the stale variable is read and `List.getLastD` is never reached).
On success it yields the extra `("posted_submodels", ...)` pair. -/
def fetch_and_post_submodels (cfg : Config) (fetchO : Str → HttpResp)
    (postO : Str → Nat) (uuid : Str) : GenResult :=
  let steps := (allSmIds cfg).map (processItem cfg fetchO postO)
  let ys := steps.map (·.yld)
  let present := (steps.map (·.present)).flatten
  let acts := (steps.map (·.acts)).flatten
  match create_submodel_descriptor cfg present with
  | .error e => ⟨ys, present, none, some e, acts⟩
  | .ok descs =>
      match create_shell_descriptor uuid (cfg.assets.getLastD []) descs with
      | .error e => ⟨ys, present, none, some e, acts⟩
      | .ok sh =>
          ⟨ys ++ [(("posted_submodels").toList, .jarr present)], present,
            some sh, none, acts⟩

/-- The four counters printed by the summary (source lines 278-282). -/
structure Summary where
  total : Nat
  posted : Nat
  skipped : Nat
  failed : Nat
  deriving DecidableEq

/-- One iteration of the driver's tally loop (source lines 270-276): every
yielded pair increments `count`; `posted`, `skipped` and `failed` increment
on the matching `result_type` tag. -/
def tallyStep (s : Summary) (y : Str × JVal) : Summary :=
  ⟨s.total + 1,
   s.posted + (if y.1 = ("posted").toList then 1 else 0),
   s.skipped + (if y.1 = ("skipped").toList then 1 else 0),
   s.failed + (if y.1 = ("failed").toList then 1 else 0)⟩

/-- The driver's tally loop (source lines 263-276) over the consumed
yields. -/
def tallyYields (ys : List (Str × JVal)) : Summary :=
  ys.foldl tallyStep ⟨0, 0, 0, 0⟩

/-- The observable outcome of the driver (source lines 254-282): the printed
summary (`none` when the run aborts before the summary lines), the yields
consumed, the shell descriptor built, the propagated exception if any, and
the full request trace. -/
structure MainResult where
  summary : Option Summary
  yields : List (Str × JVal)
  shell : Option JVal
  err : Option PyErr
  acts : List NetAction

/-- The driver (source lines 254-282): in dry-run mode the token request is
skipped and a null token used; otherwise `get_oauth_token` runs first (its
POST hits the network before the status check) and an exception there aborts
the run before any fetch or post.  The tally loop then consumes the
generator; an exception raised by the generator's post-loop section
propagates after all item yields were counted, so the summary is never
printed in that case. -/
def mainRun (cfg : Config) (tokenResp : HttpResp) (fetchO : Str → HttpResp)
    (postO : Str → Nat) (uuid : Str) : MainResult :=
  if cfg.dryRun then
    let g := fetch_and_post_submodels cfg fetchO postO uuid
    match g.err with
    | some e => ⟨none, g.yields, g.shell, some e, g.acts⟩
    | none => ⟨some (tallyYields g.yields), g.yields, g.shell, none, g.acts⟩
  else
    match get_oauth_token tokenResp with
    | .error e => ⟨none, [], none, some e, [.tokenPost]⟩
    | .ok _ =>
        let g := fetch_and_post_submodels cfg fetchO postO uuid
        match g.err with
        | some e => ⟨none, g.yields, g.shell, some e, .tokenPost :: g.acts⟩
        | none =>
            ⟨some (tallyYields g.yields), g.yields, g.shell, none,
              .tokenPost :: g.acts⟩

/-! ### Shape and tally lemmas for the generator and driver -/

/-- The per-item yields, in iteration order. -/
def itemYields (cfg : Config) (fetchO : Str → HttpResp) (postO : Str → Nat) :
    List (Str × JVal) :=
  (allSmIds cfg).map (fun i => (processItem cfg fetchO postO i).yld)

theorem gen_acts_eq (cfg : Config) (fetchO : Str → HttpResp)
    (postO : Str → Nat) (uuid : Str) :
    (fetch_and_post_submodels cfg fetchO postO uuid).acts =
      (((allSmIds cfg).map (processItem cfg fetchO postO)).map (·.acts)).flatten := by
  unfold fetch_and_post_submodels
  dsimp only
  split
  · rfl
  · split <;> rfl

theorem gen_yields_shape (cfg : Config) (fetchO : Str → HttpResp)
    (postO : Str → Nat) (uuid : Str) :
    (fetch_and_post_submodels cfg fetchO postO uuid).yields =
        itemYields cfg fetchO postO ∨
    (fetch_and_post_submodels cfg fetchO postO uuid).yields =
        itemYields cfg fetchO postO ++
          [(("posted_submodels").toList,
            .jarr (fetch_and_post_submodels cfg fetchO postO uuid).present)] := by
  unfold fetch_and_post_submodels itemYields
  dsimp only
  split
  · left; simp [List.map_map]
  · split
    · left; simp [List.map_map]
    · right; simp [List.map_map]

theorem tally_go (ys : List (Str × JVal)) :
    ∀ s : Summary, ys.foldl tallyStep s =
      ⟨s.total + ys.length,
       s.posted + ys.countP (fun y => decide (y.1 = ("posted").toList)),
       s.skipped + ys.countP (fun y => decide (y.1 = ("skipped").toList)),
       s.failed + ys.countP (fun y => decide (y.1 = ("failed").toList))⟩ := by
  induction ys with
  | nil => intro s; simp
  | cons y ys ih =>
    intro s
    rw [List.foldl_cons, ih]
    simp only [tallyStep, List.length_cons, List.countP_cons, Summary.mk.injEq]
    refine ⟨by omega, ?_, ?_, ?_⟩ <;> by_cases h : y.1 = ("posted").toList <;>
      by_cases h2 : y.1 = ("skipped").toList <;>
      by_cases h3 : y.1 = ("failed").toList <;>
      simp [h, h2, h3] <;> omega

/-- Closed form of the tally: `total` counts every yield (including the
generator's final `posted_submodels` yield), the other three count their
tags. -/
theorem tallyYields_eq (ys : List (Str × JVal)) :
    tallyYields ys =
      ⟨ys.length,
       ys.countP (fun y => decide (y.1 = ("posted").toList)),
       ys.countP (fun y => decide (y.1 = ("skipped").toList)),
       ys.countP (fun y => decide (y.1 = ("failed").toList))⟩ := by
  unfold tallyYields
  rw [tally_go]
  simp

/-! ### Branch lemmas for `processItem` -/

theorem processItem_fetch_fail (cfg : Config) (fetchO : Str → HttpResp)
    (postO : Str → Nat) (smId : Str)
    (h : (fetchO smId).status ≠ 200 ∨ isJObj (fetchO smId).body = false) :
    processItem cfg fetchO postO smId =
      ⟨((("failed").toList), .jstr smId), [],
       [.sourceGet (cfg.sourceUrl ++ '/' :: smId)]⟩ := by
  unfold processItem
  by_cases hs : (fetchO smId).status ≠ 200
  · rw [if_pos hs]
  · rw [if_neg hs]
    rcases h with h | h
    · exact absurd h hs
    · cases hb : (fetchO smId).body with
      | jobj fields => rw [hb] at h; simp [isJObj] at h
      | jnull => rfl
      | jbool b => rfl
      | jnum n => rfl
      | jstr s => rfl
      | jarr xs => rfl

theorem processItem_posted (cfg : Config) (fetchO : Str → HttpResp)
    (postO : Str → Nat) (smId : Str) (fields : List (Str × JVal))
    (hdry : cfg.dryRun = false) (h200 : (fetchO smId).status = 200)
    (hobj : (fetchO smId).body = .jobj fields)
    (hp : postO smId = 200 ∨ postO smId = 201) :
    processItem cfg fetchO postO smId =
      ⟨((("posted").toList), (jGet fields (("id").toList)).getD .jnull),
       [(jGet fields (("id").toList)).getD .jnull],
       [.sourceGet (cfg.sourceUrl ++ '/' :: smId),
        .destPost cfg.destUrl (.jobj fields)]⟩ := by
  unfold processItem
  rw [if_neg (by simp [h200]), hobj]
  dsimp only
  rw [if_neg (by simp [hdry]), if_pos hp]

theorem processItem_skipped (cfg : Config) (fetchO : Str → HttpResp)
    (postO : Str → Nat) (smId : Str) (fields : List (Str × JVal))
    (hdry : cfg.dryRun = false) (h200 : (fetchO smId).status = 200)
    (hobj : (fetchO smId).body = .jobj fields)
    (hp : postO smId = 409) :
    processItem cfg fetchO postO smId =
      ⟨((("skipped").toList), (jGet fields (("id").toList)).getD .jnull),
       [(jGet fields (("id").toList)).getD .jnull],
       [.sourceGet (cfg.sourceUrl ++ '/' :: smId),
        .destPost cfg.destUrl (.jobj fields)]⟩ := by
  unfold processItem
  rw [if_neg (by simp [h200]), hobj]
  dsimp only
  rw [if_neg (by simp [hdry]), if_neg (by omega), if_pos hp]

theorem processItem_post_fail (cfg : Config) (fetchO : Str → HttpResp)
    (postO : Str → Nat) (smId : Str) (fields : List (Str × JVal))
    (hdry : cfg.dryRun = false) (h200 : (fetchO smId).status = 200)
    (hobj : (fetchO smId).body = .jobj fields)
    (h1 : postO smId ≠ 200) (h2 : postO smId ≠ 201) (h3 : postO smId ≠ 409) :
    processItem cfg fetchO postO smId =
      ⟨((("failed").toList), (jGet fields (("id").toList)).getD .jnull), [],
       [.sourceGet (cfg.sourceUrl ++ '/' :: smId),
        .destPost cfg.destUrl (.jobj fields)]⟩ := by
  unfold processItem
  rw [if_neg (by simp [h200]), hobj]
  dsimp only
  rw [if_neg (by simp [hdry]), if_neg (by omega), if_neg h3]

theorem processItem_dry (cfg : Config) (fetchO : Str → HttpResp)
    (postO : Str → Nat) (smId : Str) (fields : List (Str × JVal))
    (hdry : cfg.dryRun = true) (h200 : (fetchO smId).status = 200)
    (hobj : (fetchO smId).body = .jobj fields) :
    processItem cfg fetchO postO smId =
      ⟨((("dry_run").toList), (jGet fields (("id").toList)).getD .jnull), [],
       [.sourceGet (cfg.sourceUrl ++ '/' :: smId)]⟩ := by
  unfold processItem
  rw [if_neg (by simp [h200]), hobj]
  dsimp only
  rw [if_pos hdry]

theorem processItem_no_dirPost (cfg : Config) (fetchO : Str → HttpResp)
    (postO : Str → Nat) (smId : Str) :
    ((processItem cfg fetchO postO smId).acts.filter isDirPost) = [] := by
  unfold processItem
  dsimp only
  repeat' split
  all_goals rfl

theorem processItem_no_post_dry (cfg : Config) (fetchO : Str → HttpResp)
    (postO : Str → Nat) (smId : Str) (hdry : cfg.dryRun = true) :
    ((processItem cfg fetchO postO smId).acts.filter isPost) = [] := by
  unfold processItem
  dsimp only
  repeat' split
  all_goals rfl

theorem processItem_dry_tag (cfg : Config) (fetchO : Str → HttpResp)
    (postO : Str → Nat) (smId : Str) (hdry : cfg.dryRun = true) :
    (processItem cfg fetchO postO smId).yld.1 = ("failed").toList ∨
    (processItem cfg fetchO postO smId).yld.1 = ("dry_run").toList := by
  unfold processItem
  dsimp only
  repeat' split
  all_goals first | (left; rfl) | (right; rfl)

theorem gen_no_dirPost (cfg : Config) (fetchO : Str → HttpResp)
    (postO : Str → Nat) (uuid : Str) :
    ((fetch_and_post_submodels cfg fetchO postO uuid).acts.filter isDirPost)
      = [] := by
  rw [gen_acts_eq]
  generalize allSmIds cfg = ids
  induction ids with
  | nil => rfl
  | cons i rest ih =>
    simp only [List.map_cons, List.flatten_cons, List.filter_append,
      processItem_no_dirPost, List.nil_append, ih]

theorem gen_no_post_dry (cfg : Config) (fetchO : Str → HttpResp)
    (postO : Str → Nat) (uuid : Str) (hdry : cfg.dryRun = true) :
    ((fetch_and_post_submodels cfg fetchO postO uuid).acts.filter isPost)
      = [] := by
  rw [gen_acts_eq]
  generalize allSmIds cfg = ids
  induction ids with
  | nil => rfl
  | cons i rest ih =>
    simp only [List.map_cons, List.flatten_cons, List.filter_append,
      processItem_no_post_dry cfg fetchO postO i hdry, List.nil_append, ih]

theorem gen_yields_take (cfg : Config) (fetchO : Str → HttpResp)
    (postO : Str → Nat) (uuid : Str) :
    (fetch_and_post_submodels cfg fetchO postO uuid).yields.take
        (allSmIds cfg).length = itemYields cfg fetchO postO := by
  have hlen : (itemYields cfg fetchO postO).length = (allSmIds cfg).length := by
    simp [itemYields]
  rcases gen_yields_shape cfg fetchO postO uuid with h | h
  · rw [h, ← hlen, List.take_length]
  · rw [h, ← hlen, List.take_left]

theorem gen_yields_length (cfg : Config) (fetchO : Str → HttpResp)
    (postO : Str → Nat) (uuid : Str) :
    (allSmIds cfg).length ≤
      (fetch_and_post_submodels cfg fetchO postO uuid).yields.length := by
  rcases gen_yields_shape cfg fetchO postO uuid with h | h <;> rw [h] <;>
    simp [itemYields]

/-! ### Helper lemmas on `mainRun` in dry-run mode -/

theorem mainRun_dry_yields (cfg : Config) (tokenResp : HttpResp)
    (fetchO : Str → HttpResp) (postO : Str → Nat) (uuid : Str)
    (hdry : cfg.dryRun = true) :
    (mainRun cfg tokenResp fetchO postO uuid).yields =
      (fetch_and_post_submodels cfg fetchO postO uuid).yields := by
  unfold mainRun
  rw [if_pos hdry]
  dsimp only
  split <;> rfl

theorem mainRun_dry_acts (cfg : Config) (tokenResp : HttpResp)
    (fetchO : Str → HttpResp) (postO : Str → Nat) (uuid : Str)
    (hdry : cfg.dryRun = true) :
    (mainRun cfg tokenResp fetchO postO uuid).acts =
      (fetch_and_post_submodels cfg fetchO postO uuid).acts := by
  unfold mainRun
  rw [if_pos hdry]
  dsimp only
  split <;> rfl

theorem mainRun_dry_tags (cfg : Config) (tokenResp : HttpResp)
    (fetchO : Str → HttpResp) (postO : Str → Nat) (uuid : Str)
    (hdry : cfg.dryRun = true) :
    ∀ y ∈ (mainRun cfg tokenResp fetchO postO uuid).yields,
      y.1 ≠ ("posted").toList ∧ y.1 ≠ ("skipped").toList := by
  intro y hy
  rw [mainRun_dry_yields cfg tokenResp fetchO postO uuid hdry] at hy
  have hitem : ∀ z ∈ itemYields cfg fetchO postO,
      z.1 ≠ ("posted").toList ∧ z.1 ≠ ("skipped").toList := by
    intro z hz
    simp only [itemYields, List.mem_map] at hz
    obtain ⟨i, _, rfl⟩ := hz
    rcases processItem_dry_tag cfg fetchO postO i hdry with ht | ht <;>
      rw [ht] <;> exact ⟨by decide, by decide⟩
  rcases gen_yields_shape cfg fetchO postO uuid with h | h <;> rw [h] at hy
  · exact hitem y hy
  · rcases List.mem_append.mp hy with hy | hy
    · exact hitem y hy
    · simp only [List.mem_singleton] at hy
      rw [hy]
      constructor <;> (dsimp only; decide)

/-! ### Concrete scenario constants

`scenCfg` is the script's own default configuration restricted to the single
asset `train.1` and the single suffix `%3Apcf%3A1.0.0` of the end-to-end
scenario; `dryCfg` is the same with the dry-run flag enabled.
-/

/-- Scenario configuration (defaults from source lines 35-61, one asset and
one suffix). -/
def scenCfg : Config :=
  { assets := [("train.1").toList]
    suffixes := [("%3Apcf%3A1.0.0").toList]
    smUrnHead := ("urn%3Aag.em%3Asm%3A").toList
    sourceUrl := ("https://source.example.com/api/submodels").toList
    destUrl := ("https://dest.example.com/api/submodels").toList
    dtrSmDescrUrl := ("foo").toList
    dataPlaneUrl := ("123").toList
    subprotocolBody :=
      ("id=123;dspEndpoint=http://edc.control.plane/api/v1/dsp").toList
    dryRun := false }

/-- The scenario configuration with `DRY_RUN` enabled. -/
def dryCfg : Config := { scenCfg with dryRun := true }

/-- Scenario fetch oracle: every source GET returns 200 with body
`{"id": "sm-1"}`. -/
def scenFetch : Str → HttpResp :=
  fun _ => ⟨200, .jobj [(("id").toList, .jstr (("sm-1").toList))], []⟩

/-- Scenario token response: 200 with a non-empty `access_token`. -/
def scenToken : HttpResp :=
  ⟨200, .jobj [(("access_token").toList, .jstr (("tok").toList))], []⟩

/-- The shell descriptor the scenario run builds (with UUID oracle `u`):
one submodel descriptor with id `sm-1` and `href` equal to
`DATA_PLANE_URL` (`123`) + `/` + base64url of `sm-1` (`c20tMQ`). -/
def c3Shell : JVal :=
  .jobj [
    (("id").toList, .jstr (("urn:uuid:u").toList)),
    (("idShort").toList, .jstr (("train.1").toList)),
    (("globalAssetId").toList, .jstr (("train.1").toList)),
    (("submodelDescriptors").toList, .jarr [
      .jobj [
        (("id").toList, .jstr (("sm-1").toList)),
        (("semanticId").toList, .jnull),
        (("endpoints").toList, .jarr [
          .jobj [
            (("interface").toList, .jstr (("SUBMODEL-3.0").toList)),
            (("protocolInformation").toList, .jobj [
              (("href").toList, .jstr (("123/c20tMQ").toList)),
              (("endpointProtocol").toList, .jstr (("HTTP").toList)),
              (("endpointProtocolVersion").toList,
                .jarr [.jstr (("1.1").toList)]),
              (("subprotocol").toList, .jstr (("DSP").toList)),
              (("subprotocolBody").toList, .jstr
                (("id=123;dspEndpoint=http://edc.control.plane/api/v1/dsp").toList)),
              (("subprotocolBodyEncoding").toList, .jstr (("plain").toList)),
              (("securityAttributes").toList, .jarr [
                .jobj [
                  (("type").toList, .jstr (("NONE").toList)),
                  (("key").toList, .jstr (("NONE").toList)),
                  (("value").toList, .jstr (("NONE").toList))]])])]])]])]

/-! ## Claim theorems C1-C7 -/

/-- C1: the claim asserts that the Descriptor Builder produces one
submodel-descriptor object per id in the list.  Evaluating
`create_submodel_descriptor` on the two-id list `["a", "b"]` shows the code
builds only ONE descriptor — the one for `"a"` — because the `return` at
source line 176 sits inside the `for` loop.  (The fields of the descriptor
it does build, and the shell validation, match the claim.) -/
theorem C1_first_descriptor_only :
    Except.map List.length
        (create_submodel_descriptor scenCfg
          [.jstr (("a").toList), .jstr (("b").toList)]) = .ok 1 ∧
    create_submodel_descriptor scenCfg
        [.jstr (("a").toList), .jstr (("b").toList)]
      = .ok [smDescriptor scenCfg (("a").toList)] :=
  ⟨rfl, rfl⟩

/-- C2: the claim asserts that after the iteration the assembled shell
descriptor is POSTed to the directory endpoint.  In fact no run of the
script ever issues a directory POST: `post_sm_descriptor` has no call site,
and the generator merely binds the built shell descriptor to a local
variable.  The request trace of any run — any configuration, token
response, oracles and UUID — contains no directory POST. -/
theorem C2_no_directory_post (cfg : Config) (tokenResp : HttpResp)
    (fetchO : Str → HttpResp) (postO : Str → Nat) (uuid : Str) :
    ((mainRun cfg tokenResp fetchO postO uuid).acts.filter isDirPost) = [] := by
  unfold mainRun
  dsimp only
  split
  · split <;> (dsimp only; exact gen_no_dirPost cfg fetchO postO uuid)
  · split
    · rfl
    · split <;>
        (dsimp only
         rw [List.filter_cons]
         simp only [isDirPost]
         exact gen_no_dirPost cfg fetchO postO uuid)

/-- C3: the end-to-end scenario (single asset `train.1`, single suffix,
fetch returns `{"id": "sm-1"}`, post returns 201).  The run builds exactly
the claimed shell descriptor — one submodel descriptor with id `sm-1` and
href `DATA_PLANE_URL/base64url("sm-1")` — and reports Posted=1, Skipped=0,
Failed=0; but the printed total is 2, not 1 as the claim states, because the
driver's tally loop also counts the generator's final
`("posted_submodels", ...)` yield as an item. -/
theorem C3_scenario_eval :
    (mainRun scenCfg scenToken scenFetch (fun _ => 201) (("u").toList)).summary
        = some ⟨2, 1, 0, 0⟩ ∧
    (mainRun scenCfg scenToken scenFetch (fun _ => 201) (("u").toList)).shell
        = some c3Shell ∧
    to_base64url (("sm-1").toList) = ("c20tMQ").toList :=
  ⟨by decide, by rfl, by decide⟩

/-- C4 (amended): in a dry run no network POST of any kind is issued (the
token request is skipped, destination posts are suppressed, the directory is
never posted), every successfully fetched item is classified `dry_run`, and
the `posted` and `skipped` counters are zero.  The `failed` counter is NOT
always zero: fetches still happen in a dry run and a failed fetch is tallied
as `failed` (see the counterexample). -/
theorem C4_dry_run (cfg : Config) (tokenResp : HttpResp)
    (fetchO : Str → HttpResp) (postO : Str → Nat) (uuid : Str)
    (smId : Str) (fields : List (Str × JVal))
    (hdry : cfg.dryRun = true)
    (h200 : (fetchO smId).status = 200)
    (hobj : (fetchO smId).body = .jobj fields) :
    ((mainRun cfg tokenResp fetchO postO uuid).acts.filter isPost = []) ∧
    (processItem cfg fetchO postO smId).yld =
      ((("dry_run").toList), (jGet fields (("id").toList)).getD .jnull) ∧
    (tallyYields (mainRun cfg tokenResp fetchO postO uuid).yields).posted
      = 0 ∧
    (tallyYields (mainRun cfg tokenResp fetchO postO uuid).yields).skipped
      = 0 := by
  refine ⟨?_, ?_, ?_, ?_⟩
  · rw [mainRun_dry_acts cfg tokenResp fetchO postO uuid hdry]
    exact gen_no_post_dry cfg fetchO postO uuid hdry
  · rw [processItem_dry cfg fetchO postO smId fields hdry h200 hobj]
  · rw [tallyYields_eq]
    exact List.countP_eq_zero.mpr (fun y hy => by
      simp only [decide_eq_true_eq]
      exact (mainRun_dry_tags cfg tokenResp fetchO postO uuid hdry y hy).1)
  · rw [tallyYields_eq]
    exact List.countP_eq_zero.mpr (fun y hy => by
      simp only [decide_eq_true_eq]
      exact (mainRun_dry_tags cfg tokenResp fetchO postO uuid hdry y hy).2)

/-- Witness for `C4_dry_run`: the scenario configuration with dry-run
enabled, a fetch oracle that always succeeds with `{"id": "sm-1"}`, and one
concrete item. -/
theorem C4_dry_run_witness :
    ((mainRun dryCfg scenToken scenFetch (fun _ => 201)
        (("u").toList)).acts.filter isPost = []) ∧
    (processItem dryCfg scenFetch (fun _ => 201) (("sm").toList)).yld =
      ((("dry_run").toList),
        (jGet [(("id").toList, .jstr (("sm-1").toList))]
          (("id").toList)).getD .jnull) ∧
    (tallyYields (mainRun dryCfg scenToken scenFetch (fun _ => 201)
        (("u").toList)).yields).posted = 0 ∧
    (tallyYields (mainRun dryCfg scenToken scenFetch (fun _ => 201)
        (("u").toList)).yields).skipped = 0 :=
  C4_dry_run dryCfg scenToken scenFetch (fun _ => 201) (("u").toList)
    (("sm").toList) [(("id").toList, .jstr (("sm-1").toList))] rfl rfl rfl

/-- Counterexample to C4 as stated: in a dry run whose single fetch returns
404, the `failed` counter is 1, not 0 — dry runs suppress posts but still
tally failed fetches as `failed`. -/
theorem C4_counterexample :
    (tallyYields (mainRun dryCfg scenToken
        (fun _ => ⟨404, .jnull, (("not found").toList)⟩) (fun _ => 201)
        (("u").toList)).yields).failed = 1 ∧
    (tallyYields (mainRun dryCfg scenToken
        (fun _ => ⟨404, .jnull, (("not found").toList)⟩) (fun _ => 201)
        (("u").toList)).yields).failed ≠ 0 := by
  constructor
  · decide
  · decide

/-- C5: classification of a destination POST of a fetched submodel (dry-run
off, fetch succeeded with a dict body): status 200 or 201 yields
`("posted", label)` and appends the label to the accumulated present list;
409 yields `("skipped", label)` and likewise appends it; any other status
yields `("failed", label)` and appends nothing. -/
theorem C5_post_classification (cfg : Config) (fetchO : Str → HttpResp)
    (postO : Str → Nat) (smId : Str) (fields : List (Str × JVal))
    (hdry : cfg.dryRun = false)
    (h200 : (fetchO smId).status = 200)
    (hobj : (fetchO smId).body = .jobj fields) :
    ((postO smId = 200 ∨ postO smId = 201) →
       (processItem cfg fetchO postO smId).yld =
         ((("posted").toList), (jGet fields (("id").toList)).getD .jnull) ∧
       (processItem cfg fetchO postO smId).present =
         [(jGet fields (("id").toList)).getD .jnull]) ∧
    (postO smId = 409 →
       (processItem cfg fetchO postO smId).yld =
         ((("skipped").toList), (jGet fields (("id").toList)).getD .jnull) ∧
       (processItem cfg fetchO postO smId).present =
         [(jGet fields (("id").toList)).getD .jnull]) ∧
    (postO smId ≠ 200 → postO smId ≠ 201 → postO smId ≠ 409 →
       (processItem cfg fetchO postO smId).yld =
         ((("failed").toList), (jGet fields (("id").toList)).getD .jnull) ∧
       (processItem cfg fetchO postO smId).present = []) := by
  refine ⟨fun hp => ?_, fun hp => ?_, fun h1 h2 h3 => ?_⟩
  · rw [processItem_posted cfg fetchO postO smId fields hdry h200 hobj hp]
    exact ⟨rfl, rfl⟩
  · rw [processItem_skipped cfg fetchO postO smId fields hdry h200 hobj hp]
    exact ⟨rfl, rfl⟩
  · rw [processItem_post_fail cfg fetchO postO smId fields hdry h200 hobj
      h1 h2 h3]
    exact ⟨rfl, rfl⟩

/-- Witness for `C5_post_classification`: the scenario fetch oracle and a
destination oracle answering 201. -/
theorem C5_post_classification_witness :
    ((201 = 200 ∨ (201 : Nat) = 201) →
       (processItem scenCfg scenFetch (fun _ => 201) (("sm").toList)).yld =
         ((("posted").toList),
          (jGet [(("id").toList, .jstr (("sm-1").toList))]
            (("id").toList)).getD .jnull) ∧
       (processItem scenCfg scenFetch (fun _ => 201) (("sm").toList)).present =
         [(jGet [(("id").toList, .jstr (("sm-1").toList))]
            (("id").toList)).getD .jnull]) ∧
    ((201 : Nat) = 409 →
       (processItem scenCfg scenFetch (fun _ => 201) (("sm").toList)).yld =
         ((("skipped").toList),
          (jGet [(("id").toList, .jstr (("sm-1").toList))]
            (("id").toList)).getD .jnull) ∧
       (processItem scenCfg scenFetch (fun _ => 201) (("sm").toList)).present =
         [(jGet [(("id").toList, .jstr (("sm-1").toList))]
            (("id").toList)).getD .jnull]) ∧
    ((201 : Nat) ≠ 200 → (201 : Nat) ≠ 201 → (201 : Nat) ≠ 409 →
       (processItem scenCfg scenFetch (fun _ => 201) (("sm").toList)).yld =
         ((("failed").toList),
          (jGet [(("id").toList, .jstr (("sm-1").toList))]
            (("id").toList)).getD .jnull) ∧
       (processItem scenCfg scenFetch (fun _ => 201) (("sm").toList)).present
         = []) :=
  C5_post_classification scenCfg scenFetch (fun _ => 201) (("sm").toList)
    [(("id").toList, .jstr (("sm-1").toList))] rfl rfl rfl

/-- C6: a source fetch with a status other than 200, or with a body that is
not a dict, yields `("failed", sm_id)` for that item only — the label is the
submodel id itself, nothing is appended to the present list, and no
destination POST is issued for it — and the batch still produces one yield
per (asset, suffix) item: the generator's first `|assets|·|suffixes|` yields
are exactly the per-item outcomes, so one failed fetch never aborts the
iteration. -/
theorem C6_fetch_failure_isolated (cfg : Config) (fetchO : Str → HttpResp)
    (postO : Str → Nat) (uuid : Str) (smId : Str)
    (hfail : (fetchO smId).status ≠ 200 ∨ isJObj (fetchO smId).body = false) :
    (processItem cfg fetchO postO smId).yld =
      ((("failed").toList), .jstr smId) ∧
    (processItem cfg fetchO postO smId).present = [] ∧
    (processItem cfg fetchO postO smId).acts =
      [.sourceGet (cfg.sourceUrl ++ '/' :: smId)] ∧
    (fetch_and_post_submodels cfg fetchO postO uuid).yields.take
        (allSmIds cfg).length = itemYields cfg fetchO postO ∧
    (allSmIds cfg).length ≤
      (fetch_and_post_submodels cfg fetchO postO uuid).yields.length := by
  have hpi := processItem_fetch_fail cfg fetchO postO smId hfail
  exact ⟨by rw [hpi], by rw [hpi], by rw [hpi],
    gen_yields_take cfg fetchO postO uuid,
    gen_yields_length cfg fetchO postO uuid⟩

/-- Witness for `C6_fetch_failure_isolated`: a fetch oracle answering 404
for every id, on the scenario configuration. -/
theorem C6_fetch_failure_isolated_witness :
    (processItem scenCfg (fun _ => ⟨404, .jnull, (("not found").toList)⟩)
        (fun _ => 201) (("sm").toList)).yld =
      ((("failed").toList), .jstr (("sm").toList)) ∧
    (processItem scenCfg (fun _ => ⟨404, .jnull, (("not found").toList)⟩)
        (fun _ => 201) (("sm").toList)).present = [] ∧
    (processItem scenCfg (fun _ => ⟨404, .jnull, (("not found").toList)⟩)
        (fun _ => 201) (("sm").toList)).acts =
      [.sourceGet (scenCfg.sourceUrl ++ '/' :: (("sm").toList))] ∧
    (fetch_and_post_submodels scenCfg
        (fun _ => ⟨404, .jnull, (("not found").toList)⟩) (fun _ => 201)
        (("u").toList)).yields.take (allSmIds scenCfg).length =
      itemYields scenCfg (fun _ => ⟨404, .jnull, (("not found").toList)⟩)
        (fun _ => 201) ∧
    (allSmIds scenCfg).length ≤
      (fetch_and_post_submodels scenCfg
        (fun _ => ⟨404, .jnull, (("not found").toList)⟩) (fun _ => 201)
        (("u").toList)).yields.length :=
  C6_fetch_failure_isolated scenCfg
    (fun _ => ⟨404, .jnull, (("not found").toList)⟩) (fun _ => 201)
    (("u").toList) (("sm").toList) (Or.inl (by decide))

/-- C7 (amended): the token provider returns the token exactly when the
endpoint answers 200 with a present, non-empty (truthy) `access_token`
field.  When the status is not 200 it raises an error carrying the status
code and response body; when the status is 200 but the token field is
missing or empty it raises an error that does NOT carry them (the claim
asserts it does — see the counterexample).  In either error case the run
aborts before any fetch or post occurs (the trace is just the token
request) and no summary is printed. -/
theorem C7_token_provider (cfg : Config) (resp : HttpResp)
    (fields : List (Str × JVal)) (fetchO : Str → HttpResp)
    (postO : Str → Nat) (uuid : Str) (e : PyErr)
    (hdry : cfg.dryRun = false) (hbody : resp.body = .jobj fields) :
    (resp.status = 200 →
       pyFalsy ((jGet fields (("access_token").toList)).getD .jnull) = false →
       get_oauth_token resp =
         .ok ((jGet fields (("access_token").toList)).getD .jnull)) ∧
    (resp.status = 200 →
       pyFalsy ((jGet fields (("access_token").toList)).getD .jnull) = true →
       get_oauth_token resp = .error .tokenMissing ∧
       carriesStatusBody .tokenMissing = false) ∧
    (resp.status ≠ 200 →
       get_oauth_token resp = .error (.tokenReqFailed resp.status resp.text) ∧
       carriesStatusBody (.tokenReqFailed resp.status resp.text) = true) ∧
    (get_oauth_token resp = .error e →
       mainRun cfg resp fetchO postO uuid =
         ⟨none, [], none, some e, [.tokenPost]⟩) := by
  refine ⟨fun hs ht => ?_, fun hs ht => ?_, fun hs => ?_, fun he => ?_⟩
  · unfold get_oauth_token
    rw [if_neg (by simp [hs]), hbody]
    dsimp only
    rw [ht]
    rfl
  · unfold get_oauth_token
    rw [if_neg (by simp [hs]), hbody]
    dsimp only
    rw [ht]
    exact ⟨rfl, rfl⟩
  · unfold get_oauth_token
    rw [if_pos hs]
    exact ⟨rfl, rfl⟩
  · unfold mainRun
    rw [if_neg (by simp [hdry]), he]

/-- Witness for `C7_token_provider`: the scenario token response (200 with
token `tok`) on the scenario configuration. -/
theorem C7_token_provider_witness :
    (scenToken.status = 200 →
       pyFalsy ((jGet [(("access_token").toList, .jstr (("tok").toList))]
           (("access_token").toList)).getD .jnull) = false →
       get_oauth_token scenToken =
         .ok ((jGet [(("access_token").toList, .jstr (("tok").toList))]
           (("access_token").toList)).getD .jnull)) ∧
    (scenToken.status = 200 →
       pyFalsy ((jGet [(("access_token").toList, .jstr (("tok").toList))]
           (("access_token").toList)).getD .jnull) = true →
       get_oauth_token scenToken = .error .tokenMissing ∧
       carriesStatusBody .tokenMissing = false) ∧
    (scenToken.status ≠ 200 →
       get_oauth_token scenToken =
         .error (.tokenReqFailed scenToken.status scenToken.text) ∧
       carriesStatusBody (.tokenReqFailed scenToken.status scenToken.text)
         = true) ∧
    (get_oauth_token scenToken = .error .tokenMissing →
       mainRun scenCfg scenToken scenFetch (fun _ => 201) (("u").toList) =
         ⟨none, [], none, some .tokenMissing, [.tokenPost]⟩) :=
  C7_token_provider scenCfg scenToken
    [(("access_token").toList, .jstr (("tok").toList))] scenFetch
    (fun _ => 201) (("u").toList) .tokenMissing rfl rfl

/-- Counterexample to C7 as stated: a token endpoint answering 200 with a
JSON object that lacks `access_token` makes `get_oauth_token` raise the
`tokenMissing` error, which carries neither the status code nor the response
body — contrary to the claim that the raised error always carries both. -/
theorem C7_counterexample :
    get_oauth_token ⟨200, .jobj [], (("irrelevant").toList)⟩ =
      .error .tokenMissing ∧
    carriesStatusBody .tokenMissing = false :=
  ⟨rfl, rfl⟩

end Replication
